import Mathlib

/-!
Verification of the portcheck port-collision scanner.

This file shallowly embeds the Go sources:
* `internal/scanner/scanner.go` — port-declaration normalization (`parsePort`)
  and conflict analysis (`analyze`);
* the `profiles` package — profile-aware conflict detection
  (`DetectPortConflicts`, `extractHostPort`).

Modelling conventions:
* Go `int` is modelled as `Int`; `strconv.Atoi` on an all-digit string is
  modelled as exact unbounded conversion (Go clamps above 2^63-1 with an
  ignored range error; no property proved here involves such ports).
* Go strings are Lean `String`s; `strings.Split` with a one-character
  separator is modelled by `splitCharList` over the character list, which
  agrees with Go's `strings.Split` semantics (`Split("", sep) = [""]`, empty
  segments preserved).
* Go map iteration order is unspecified; wherever the source ranges over a
  map (`r.PortMap`, the `portServices` map), the model enumerates the
  distinct keys via `List.dedup`.  Every property proved below is invariant
  under the order in which ports are visited.
* `sort.Slice` with the strict `(severity rank, port)` comparator is
  modelled by `List.insertionSort` with the corresponding reflexive total
  relation; `sort.Slice` is not stable, and no property proved here depends
  on the order of issues with equal `(severity rank, port)` keys.
-/

/-- One resolved port mapping (`PortBinding` in scanner.go).  The Go struct
field `Type` of `Issue` is named `kind` here because `Type` is a Lean
keyword. -/
structure PortBinding where
  HostPort : Int
  ContainerPort : Int
  Protocol : String
  HostIP : String
  Service : String
  File : String
  Original : String
  deriving DecidableEq, Repr

/-- One detected port problem (`Issue` in scanner.go); the Go field `Type`
is called `kind`. -/
structure Issue where
  Severity : String
  kind : String
  Port : Int
  Description : String
  Bindings : List PortBinding
  deriving DecidableEq, Repr

/-- The `published` value of a long-form port mapping after YAML decoding:
the Go code type-asserts it first as `int`, then as `string`. -/
inductive PubValue where
  | int (n : Int)
  | str (s : String)
  deriving DecidableEq, Repr

/-- A raw port declaration as it reaches `parsePort` after YAML decoding:
a string, a bare integer, a long-form mapping (each optional field is
`none` when the key is absent or its Go type assertion fails), or any
other YAML value (`other`). -/
inductive RawPort where
  | str (s : String)
  | int (n : Int)
  | map (target : Option Int) (published : Option PubValue)
      (protocol : Option String) (hostIp : Option String)
  | other
  deriving DecidableEq, Repr

/-- Split a character list at every occurrence of `c`, keeping empty
segments — the semantics of Go `strings.Split` with a one-character
separator (and of Lean `String.splitOn`). -/
def splitCharList : List Char → Char → List (List Char)
  | [], _ => [[]]
  | a :: rest, c =>
    match splitCharList rest c with
    | [] => [[a]]
    | h :: t => if a = c then [] :: h :: t else (a :: h) :: t

/-- A nonempty all-digit character list — the regex fragment `\d+`. -/
def isDigitsL (cs : List Char) : Bool :=
  !cs.isEmpty && cs.all (fun c => c.isDigit)

/-- One to three digits — the regex fragment `\d{1,3}`. -/
def isOctetL (cs : List Char) : Bool :=
  decide (1 ≤ cs.length) && decide (cs.length ≤ 3) && cs.all (fun c => c.isDigit)

/-- The regex fragment `\d{1,3}\.\d{1,3}\.\d{1,3}\.\d{1,3}`. -/
def isIPv4L (cs : List Char) : Bool :=
  match splitCharList cs '.' with
  | [a, b, c, d] => isOctetL a && isOctetL b && isOctetL c && isOctetL d
  | _ => false

/-- Numeric value of an all-digit character list (`strconv.Atoi` on a
`\d+` regex capture; Go's clamping at 2^63-1 is not modelled). -/
def natOfDigits (cs : List Char) : Nat :=
  cs.foldl (fun n c => n * 10 + (c.toNat - 48)) 0

/-- Strip the anchored optional regex suffix `(?:/(tcp|udp))?` from the end
of the declaration, returning the remaining characters and the captured
protocol if present. -/
def stripProtoList (cs : List Char) : List Char × Option String :=
  let n := cs.length
  if 4 ≤ n then
    match cs.drop (n - 4) with
    | ['/', 't', 'c', 'p'] => (cs.take (n - 4), some "tcp")
    | ['/', 'u', 'd', 'p'] => (cs.take (n - 4), some "udp")
    | _ => (cs, none)
  else (cs, none)

/-- Matching of `portRegex`
`^(?:(\d{1,3}\.\d{1,3}\.\d{1,3}\.\d{1,3}):)?(\d+)(?::(\d+))?(?:/(tcp|udp))?$`
against a string, returning the captures
(hostIP or `""`, host port, optional container port, optional protocol).
The regex language is unambiguous: the protocol suffix is first stripped
(no `/` may occur elsewhere in a match), and the remaining colon-separated
segments determine the shape (`D`, `D:D`, `IP:D`, `IP:D:D`). -/
def parsePortString (s : String) : Option (String × Nat × Option Nat × Option String) :=
  let core := (stripProtoList s.toList).1
  let proto := (stripProtoList s.toList).2
  match splitCharList core ':' with
  | [a] =>
    if isDigitsL a then some ("", natOfDigits a, none, proto) else none
  | [a, b] =>
    if isDigitsL a && isDigitsL b then
      some ("", natOfDigits a, some (natOfDigits b), proto)
    else if isIPv4L a && isDigitsL b then
      some (String.mk a, natOfDigits b, none, proto)
    else none
  | [a, b, c] =>
    if isIPv4L a && isDigitsL b && isDigitsL c then
      some (String.mk a, natOfDigits b, some (natOfDigits c), proto)
    else none
  | _ => none

/-- `strconv.Atoi` as used for a long-form `published` string value: an
optional sign followed by digits; on any syntax error Go returns `0` with
an error that the caller discards. -/
def goAtoi (s : String) : Int :=
  match s.toList with
  | [] => 0
  | '-' :: rest => if isDigitsL rest then -((natOfDigits rest : Nat) : Int) else 0
  | '+' :: rest => if isDigitsL rest then ((natOfDigits rest : Nat) : Int) else 0
  | cs => if isDigitsL cs then ((natOfDigits cs : Nat) : Int) else 0

/-- The final `if binding.HostPort == 0 { return nil }` check of
`parsePort`. -/
def checkPort (b : PortBinding) : Option PortBinding :=
  if b.HostPort = 0 then none else some b

/-- `parsePort` from scanner.go: normalize one raw port declaration into a
canonical binding, or reject it. -/
def parsePort (port : RawPort) (service file : String) : Option PortBinding :=
  match port with
  | .str v =>
    match parsePortString v with
    | none => none
    | some (ip, host, containerOpt, protoOpt) =>
      checkPort
        { HostPort := (host : Int)
          ContainerPort := ((containerOpt.getD host : Nat) : Int)
          Protocol := protoOpt.getD "tcp"
          HostIP := ip
          Service := service
          File := file
          Original := v }
  | .int v =>
    checkPort
      { HostPort := v, ContainerPort := v, Protocol := "tcp", HostIP := ""
        Service := service, File := file, Original := toString v }
  | .map target published protocol hostIp =>
    let hostPort : Int :=
      match published with
      | some (.int n) => n
      | some (.str s) => goAtoi s
      | none => 0
    let containerPort : Int := target.getD 0
    checkPort
      { HostPort := hostPort, ContainerPort := containerPort
        Protocol := protocol.getD "tcp", HostIP := hostIp.getD ""
        Service := service, File := file
        Original := toString hostPort ++ ":" ++ toString containerPort }
  | .other => none

/-- `b.HostIP == "" || b.HostIP == "0.0.0.0"` — the wildcard test of the
analyzer's grouping stage. -/
def wildcard (b : PortBinding) : Bool :=
  b.HostIP == "" || b.HostIP == "0.0.0.0"

/-- `r.PortMap[port]`: the group of bindings with the given host port, in
binding-list order (`parseComposeFile` appends to `PortBindings` and to
`PortMap[HostPort]` in the same iteration, so the map entry is always the
filtered binding list). -/
def groupOf (bs : List PortBinding) (port : Int) : List PortBinding :=
  bs.filter (fun b => b.HostPort == port)

/-- Concatenation of `f` over a list (Go `append` accumulation across a
loop). -/
def joinMap (f : α → List β) : List α → List β
  | [] => []
  | a :: rest => f a ++ joinMap f rest

/-- The wildcard bindings of a port group (the `directCollisions` local of
the grouping loop). -/
def wildOf (bs : List PortBinding) (p : Int) : List PortBinding :=
  (groupOf bs p).filter wildcard

/-- The specific-address bindings of a port group (the
`potentialCollisions` local of the grouping loop). -/
def specOf (bs : List PortBinding) (p : Int) : List PortBinding :=
  (groupOf bs p).filter (fun b => !wildcard b)

/-- The collision issue constructed by the grouping stage. -/
def collisionIssue (port : Int) (bindings : List PortBinding) : Issue :=
  { Severity := "error", kind := "collision", Port := port
    Description := "Port " ++ toString port ++ " bound by multiple services"
    Bindings := bindings }

/-- The potential-collision issue constructed by the grouping stage. -/
def potentialIssue (port : Int) (bindings : List PortBinding) : Issue :=
  { Severity := "warning", kind := "potential_collision", Port := port
    Description := "Port " ++ toString port ++ " bound multiple times with specific IPs"
    Bindings := bindings }

/-- The issues the grouping stage emits for one host port: the body of the
`for port, bindings := range r.PortMap` loop. -/
def groupIssues (bs : List PortBinding) (port : Int) : List Issue :=
  if 1 < (groupOf bs port).length then
    if 1 < (wildOf bs port).length ∨
        (0 < (wildOf bs port).length ∧ 0 < (specOf bs port).length) then
      [collisionIssue port (groupOf bs port)]
    else if 1 < (specOf bs port).length then
      [potentialIssue port (groupOf bs port)]
    else []
  else []

/-- Stage 1 of `analyze`: the collision issues, one group per distinct host
port occurring in the binding list (the Go code ranges over the
`r.PortMap` map; iteration order is unspecified and all proved properties
are order-invariant). -/
def stage1 (bs : List PortBinding) : List Issue :=
  joinMap (groupIssues bs) ((bs.map (fun b => b.HostPort)).dedup)

/-- The privileged-port issue constructed by stage 2. -/
def privilegedIssue (b : PortBinding) : Issue :=
  { Severity := "warning", kind := "privileged", Port := b.HostPort
    Description := "Port " ++ toString b.HostPort ++ " is privileged (requires root/sudo)"
    Bindings := [b] }

/-- Stage 2 of `analyze`: one privileged-port issue per binding with
`0 < HostPort < 1024`. -/
def stage2 (bs : List PortBinding) : List Issue :=
  bs.filterMap (fun b =>
    if 0 < b.HostPort ∧ b.HostPort < 1024 then some (privilegedIssue b)
    else none)

/-- The fixed `commonPorts` lookup table of `analyze`. -/
def commonPorts (p : Int) : Option String :=
  if p = 22 then some "SSH"
  else if p = 25 then some "SMTP"
  else if p = 53 then some "DNS"
  else if p = 80 then some "HTTP"
  else if p = 443 then some "HTTPS"
  else if p = 3306 then some "MySQL"
  else if p = 5432 then some "PostgreSQL"
  else if p = 6379 then some "Redis"
  else if p = 8080 then some "HTTP Alternate"
  else if p = 27017 then some "MongoDB"
  else none

/-- The `alreadyWarned` scan of stage 3: is there a collision issue for
this port in the issue list accumulated so far? -/
def alreadyWarned (issues : List Issue) (p : Int) : Bool :=
  issues.any (fun i => i.Port == p && i.kind == "collision")

/-- The common-port issue constructed in stage 3. -/
def commonIssue (b : PortBinding) (svc : String) : Issue :=
  { Severity := "info", kind := "common_port", Port := b.HostPort
    Description := "Port " ++ toString b.HostPort ++ " is commonly used by " ++ svc
    Bindings := [b] }

/-- Stage 3 of `analyze` as the source writes it: a loop over the bindings
that appends a `common_port` issue to the accumulated issue list when the
port is in the table, the binding is wildcard, and no collision issue for
that port is present in the list accumulated so far. -/
def loop3 : List PortBinding → List Issue → List Issue
  | [], issues => issues
  | b :: rest, issues =>
    match commonPorts b.HostPort with
    | some svc =>
      if wildcard b && !alreadyWarned issues b.HostPort then
        loop3 rest (issues ++ [commonIssue b svc])
      else
        loop3 rest issues
    | none => loop3 rest issues

/-- Go's `severityOrder` map (`error 0, warning 1, info 2`); indexing a Go
map with a missing key yields the zero value `0`. -/
def severityOrder (s : String) : Nat :=
  if s = "error" then 0
  else if s = "warning" then 1
  else if s = "info" then 2
  else 0

/-- The reflexive total order corresponding to the strict `sort.Slice`
comparator: severity rank first, then port ascending. -/
def issueLE (i j : Issue) : Prop :=
  severityOrder i.Severity < severityOrder j.Severity ∨
    (severityOrder i.Severity = severityOrder j.Severity ∧ i.Port ≤ j.Port)

instance : DecidableRel issueLE := fun i j => by
  unfold issueLE
  infer_instance

instance : IsTotal Issue issueLE := by
  constructor
  intro i j
  unfold issueLE
  omega

instance : IsTrans Issue issueLE := by
  constructor
  intro i j k hij hjk
  unfold issueLE at *
  omega

/-- `analyze` from scanner.go: `prior` is the content of `r.Issues` before
the call (parse errors recorded by `Scan`); the stages append in source
order and the final list is sorted by `(severity rank, port)`. -/
def analyze (prior : List Issue) (bs : List PortBinding) : List Issue :=
  List.insertionSort issueLE (loop3 bs ((prior ++ stage1 bs) ++ stage2 bs))

/-- The grouping-stage condition under which a `collision` error is
emitted for a port: at least two wildcard bindings, or at least one
wildcard and at least one specific binding. -/
def collisionCond (bs : List PortBinding) (p : Int) : Prop :=
  1 < (wildOf bs p).length ∨
    (0 < (wildOf bs p).length ∧ 0 < (specOf bs p).length)

instance (bs : List PortBinding) (p : Int) : Decidable (collisionCond bs p) := by
  unfold collisionCond
  infer_instance

/-- Number of issues of a given kind for a given port in an issue list. -/
def countIssues (l : List Issue) (t : String) (p : Int) : Nat :=
  l.countP (fun i => i.kind == t && i.Port == p)

/-- The issues stage 3 appends when started with accumulated issue list
`issues`: `loop3 bs issues = issues ++ stage3Pure bs issues` (proved
below); the rewriting is possible because appended `common_port` issues
never change the `alreadyWarned` test. -/
def stage3Pure (bs : List PortBinding) (issues : List Issue) : List Issue :=
  bs.filterMap (fun b =>
    match commonPorts b.HostPort with
    | some svc =>
      if wildcard b && !alreadyWarned issues b.HostPort then
        some (commonIssue b svc)
      else none
    | none => none)

/-- The issue list accumulated by `analyze` just before the final sort. -/
def coreIssues (prior : List Issue) (bs : List PortBinding) : List Issue :=
  ((prior ++ stage1 bs) ++ stage2 bs) ++
    stage3Pure bs ((prior ++ stage1 bs) ++ stage2 bs)

/-- A raw port declaration together with its owning service and source
file. -/
abbrev RawDecl := RawPort × String × String

/-- The bindings accumulated by `parseComposeFile` from a list of raw
declarations (service iteration order is a Go map order; properties
proved are order-invariant, and the declaration list is taken as given). -/
def gatherBindings (decls : List RawDecl) : List PortBinding :=
  decls.filterMap (fun d => parsePort d.1 d.2.1 d.2.2)

/-- Outcome of `parseComposeFile` for one file: either an error message
(unreadable file or invalid YAML — no bindings are produced) or the
service/port declarations it contributes. -/
abbrev FileOutcome := Except String (List (String × List RawPort))

/-- The parse-error issue `Scan` appends for a file that failed to parse. -/
def parseErrorIssue (path msg : String) : Issue :=
  { Severity := "warning", kind := "parse_error", Port := 0
    Description := "Failed to parse " ++ path ++ ": " ++ msg
    Bindings := [] }

/-- The parse-error issues `Scan` collects over all files. -/
def parseErrorsOf (files : List (String × FileOutcome)) : List Issue :=
  files.filterMap (fun f =>
    match f.2 with
    | .error e => some (parseErrorIssue f.1 e)
    | .ok _ => none)

/-- The bindings one file contributes to the scan. -/
def fileBindings (f : String × FileOutcome) : List PortBinding :=
  match f.2 with
  | .ok svcs => joinMap (fun sv => sv.2.filterMap (fun p => parsePort p sv.1 f.1)) svcs
  | .error _ => []

/-- The issue list of `Scan` applied to the given per-file parse outcomes:
each failed file contributes a `parse_error` warning, every successfully
parsed file contributes its bindings, and `analyze` runs over all
gathered bindings (`Scan` always returns a result). -/
def scanIssues (files : List (String × FileOutcome)) : List Issue :=
  analyze (parseErrorsOf files) (joinMap fileBindings files)

/-- A service as recorded by the profiles package. -/
structure ProfileService where
  Name : String
  Ports : List String
  EnvFiles : List String
  File : String
  deriving DecidableEq, Repr

/-- A compose profile and its services. -/
structure Profile where
  Name : String
  Services : List ProfileService
  deriving DecidableEq, Repr

/-- All profiles found in compose files; the Go `map[string]*Profile` is
modelled as an association list with first-match lookup. -/
structure ProfilesConfig where
  Profiles : List (String × Profile)
  Files : List String
  deriving DecidableEq, Repr

/-- Info about a service using a port. -/
structure ServiceInfo where
  Service : String
  Profile : String
  Port : String
  deriving DecidableEq, Repr

/-- A port conflict between services. -/
structure PortConflict where
  Port : String
  Services : List ServiceInfo
  deriving DecidableEq, Repr

/-- First segment of a string when split at `/` (drops a `/tcp` or `/udp`
suffix, as `strings.Split(part, "/")[0]`). -/
def firstSlashPart (cs : List Char) : List Char :=
  (splitCharList cs '/').headD []

/-- `extractHostPort` from the profiles package: the host-port substring of
a port spec of shape `"8080"`, `"8080:80"`, or `"127.0.0.1:8080:80"`,
with any protocol suffix removed; four or more colon-separated parts
return the spec unchanged. -/
def extractHostPort (portSpec : String) : String :=
  match splitCharList portSpec.toList ':' with
  | [a] => String.mk (firstSlashPart a)
  | [a, _b] => String.mk (firstSlashPart a)
  | [_a, b, _c] => String.mk (firstSlashPart b)
  | _ => portSpec

/-- The `(host port, service info)` entries `DetectPortConflicts`
accumulates into its `portServices` map: one entry per port spec of every
service of every profile in `"default" :: activeProfiles`, skipping specs
whose extracted host port is empty. -/
def activeEntries (c : ProfilesConfig) (activeProfiles : List String) :
    List (String × ServiceInfo) :=
  joinMap (fun name =>
    match List.lookup name c.Profiles with
    | some profile =>
      joinMap (fun svc =>
        svc.Ports.filterMap (fun port =>
          let hostPort := extractHostPort port
          if hostPort ≠ "" then
            some (hostPort, { Service := svc.Name, Profile := name, Port := port })
          else none)) profile.Services
    | none => []) ("default" :: activeProfiles)

/-- `DetectPortConflicts` from the profiles package: one conflict per
distinct host port claimed by more than one accumulated entry (the Go
code ranges over the `portServices` map; order-invariant properties
only are proved). -/
def DetectPortConflicts (c : ProfilesConfig) (activeProfiles : List String) :
    List PortConflict :=
  let entries := activeEntries c activeProfiles
  ((entries.map (fun e => e.1)).dedup).filterMap (fun port =>
    let services := (entries.filter (fun e => e.1 == port)).map (fun e => e.2)
    if 1 < services.length then some { Port := port, Services := services }
    else none)

/-! ### Concrete fixtures used by the claim theorems and witnesses -/

/-- The binding produced by `parsePort "8080:80" "web" "f.yml"`. -/
def bWeb8080 : PortBinding :=
  { HostPort := 8080, ContainerPort := 80, Protocol := "tcp", HostIP := ""
    Service := "web", File := "f.yml", Original := "8080:80" }

/-- A scan with a single wildcard binding on common port 8080. -/
def exCommon : List PortBinding := [bWeb8080]

/-- The binding produced by `parsePort "8080:80" "w1" "f.yml"`. -/
def bW1 : PortBinding :=
  { HostPort := 8080, ContainerPort := 80, Protocol := "tcp", HostIP := ""
    Service := "w1", File := "f.yml", Original := "8080:80" }

/-- Two services both declaring `"8080:80"`. -/
def exCollide : List RawDecl :=
  [(.str "8080:80", "w1", "f.yml"), (.str "8080:80", "w2", "f.yml")]

/-- A scan mixing a wildcard collision on port 80, two distinct specific
bindings on port 9000, and a lone binding on port 3000. -/
def exMixed : List PortBinding :=
  gatherBindings
    [(.str "80:80", "alpha", "f.yml"), (.str "80:80", "beta", "f.yml"),
     (.str "127.0.0.1:9000:9000", "gamma", "f.yml"),
     (.str "192.168.1.1:9000:9000", "delta", "f.yml"),
     (.str "3000:3000", "epsilon", "f.yml")]

/-- A scan producing one error on port 80 and warnings on ports 80 and
9000. -/
def exSortDemo : List PortBinding :=
  gatherBindings
    [(.str "80:80", "alpha", "f.yml"), (.str "80:80", "beta", "f.yml"),
     (.str "127.0.0.1:9000:9000", "gamma", "f.yml"),
     (.str "192.168.1.1:9000:9000", "delta", "f.yml")]

/-- The binding produced by `parsePort "80:80" "web" "f.yml"`. -/
def bWeb80 : PortBinding :=
  { HostPort := 80, ContainerPort := 80, Protocol := "tcp", HostIP := ""
    Service := "web", File := "f.yml", Original := "80:80" }

/-- One service declaring `"80:80"` and `"443:443"`. -/
def exPriv1 : List PortBinding :=
  gatherBindings [(.str "80:80", "web", "f.yml"), (.str "443:443", "web", "f.yml")]

/-- Two services both declaring `"443:443"`. -/
def exPriv2 : List PortBinding :=
  gatherBindings [(.str "443:443", "w1", "f.yml"), (.str "443:443", "w2", "f.yml")]

/-- Two services declaring `"53:53/tcp"` and `"53:53/udp"`. -/
def exDns : List PortBinding :=
  gatherBindings
    [(.str "53:53/tcp", "dns1", "docker-compose.yml"),
     (.str "53:53/udp", "dns2", "docker-compose.yml")]

/-- Two services both declaring `"127.0.0.1:8080:80"` — the same specific
host address. -/
def exSameIP : List PortBinding :=
  gatherBindings
    [(.str "127.0.0.1:8080:80", "s1", "f.yml"),
     (.str "127.0.0.1:8080:80", "s2", "f.yml")]

/-- `serviceA`, tagged with a profile, claiming host port 9090. -/
def psA : ProfileService :=
  { Name := "serviceA", Ports := ["9090:80"], EnvFiles := [], File := "d.yml" }

/-- `serviceB`, untagged (hence in the `default` profile), claiming host
port 9090. -/
def psB : ProfileService :=
  { Name := "serviceB", Ports := ["9090:81"], EnvFiles := [], File := "d.yml" }

/-- A profiles configuration with `serviceA` under profile `dev` and
`serviceB` under the implicit `default` profile. -/
def cfgProfiles : ProfilesConfig :=
  { Profiles :=
      [("default", { Name := "default", Services := [psB] }),
       ("dev", { Name := "dev", Services := [psA] })]
    Files := ["d.yml"] }

/-- A profiles configuration where the single service `serviceA` is tagged
with both profiles `dev` and `test` (the compose format allows a service
to belong to several profiles). -/
def cfgProfilesTwo : ProfilesConfig :=
  { Profiles :=
      [("default", { Name := "default", Services := [] }),
       ("dev", { Name := "dev", Services := [psA] }),
       ("test", { Name := "test", Services := [psA] })]
    Files := ["d.yml"] }

/-! ### General lemmas about the list combinators used by the model -/

theorem mem_joinMap {f : α → List β} {l : List α} {b : β} :
    b ∈ joinMap f l ↔ ∃ a ∈ l, b ∈ f a := by
  induction l with
  | nil => simp [joinMap]
  | cons a rest ih => simp [joinMap, ih]

theorem countP_joinMap (q : β → Bool) (f : α → List β) (l : List α) :
    (joinMap f l).countP q = (l.map (fun a => (f a).countP q)).sum := by
  induction l with
  | nil => simp [joinMap]
  | cons a rest ih => simp [joinMap, List.countP_append, ih]

theorem sum_map_single [DecidableEq α] {f : α → Nat} {L : List α}
    (hn : L.Nodup) (p : α) (hz : ∀ x, x ≠ p → f x = 0) :
    (L.map f).sum = if p ∈ L then f p else 0 := by
  induction L with
  | nil => simp
  | cons a rest ih =>
    rcases List.nodup_cons.mp hn with ⟨ha, hrest⟩
    rw [List.map_cons, List.sum_cons, ih hrest]
    by_cases hap : a = p
    · subst hap
      rw [if_neg ha, Nat.add_zero, if_pos (List.mem_cons_self a rest)]
    · rw [hz a hap, Nat.zero_add]
      have hiff : p ∈ a :: rest ↔ p ∈ rest := by
        simp [List.mem_cons, (Ne.symm hap : p ≠ a)]
      rw [if_congr hiff rfl rfl]

theorem length_filter_partition (q : α → Bool) (l : List α) :
    (l.filter q).length + (l.filter (fun a => !q a)).length = l.length := by
  induction l with
  | nil => simp
  | cons a rest ih =>
    cases h : q a <;> simp [List.filter_cons, h, ← ih] <;> omega

/-! ### Facts about the issue constructors -/

theorem collisionIssue_kind (p : Int) (g : List PortBinding) :
    (collisionIssue p g).kind = "collision" := rfl

theorem potentialIssue_kind (p : Int) (g : List PortBinding) :
    (potentialIssue p g).kind = "potential_collision" := rfl

theorem privilegedIssue_kind (b : PortBinding) :
    (privilegedIssue b).kind = "privileged" := rfl

theorem commonIssue_kind (b : PortBinding) (svc : String) :
    (commonIssue b svc).kind = "common_port" := rfl

/-! ### The grouping stage -/

theorem mem_groupOf {bs : List PortBinding} {p : Int} {b : PortBinding} :
    b ∈ groupOf bs p ↔ b ∈ bs ∧ b.HostPort = p := by
  simp [groupOf, List.mem_filter]

theorem groupOf_eq_nil {bs : List PortBinding} {p : Int}
    (h : p ∉ bs.map (fun b => b.HostPort)) : groupOf bs p = [] := by
  induction bs with
  | nil => rfl
  | cons b rest ih =>
    simp only [List.map_cons, List.mem_cons, not_or] at h
    unfold groupOf at ih ⊢
    rw [List.filter_cons]
    have hb : (b.HostPort == p) = false := by
      simp only [beq_eq_false_iff_ne, ne_eq]
      exact fun hbp => h.1 hbp.symm
    rw [hb]
    exact ih h.2
    
theorem wild_spec_length (bs : List PortBinding) (p : Int) :
    (wildOf bs p).length + (specOf bs p).length = (groupOf bs p).length :=
  length_filter_partition wildcard (groupOf bs p)

theorem groupIssues_collision {bs : List PortBinding} {p : Int}
    (h : collisionCond bs p) :
    groupIssues bs p = [collisionIssue p (groupOf bs p)] := by
  have hpart := wild_spec_length bs p
  unfold collisionCond at h
  have hlen : 1 < (groupOf bs p).length := by omega
  unfold groupIssues
  rw [if_pos hlen, if_pos h]

theorem groupIssues_no_collision {bs : List PortBinding} {p : Int}
    (h : ¬ collisionCond bs p) :
    groupIssues bs p =
      if 1 < (specOf bs p).length then [potentialIssue p (groupOf bs p)]
      else [] := by
  have hpart := wild_spec_length bs p
  unfold collisionCond at h
  unfold groupIssues
  by_cases hlen : 1 < (groupOf bs p).length
  · rw [if_pos hlen, if_neg h]
  · rw [if_neg hlen, if_neg (by omega : ¬ 1 < (specOf bs p).length)]

theorem groupIssues_nil_of_groupOf_nil {bs : List PortBinding} {p : Int}
    (h : groupOf bs p = []) : groupIssues bs p = [] := by
  unfold groupIssues
  rw [h]
  simp

theorem mem_groupIssues {bs : List PortBinding} {p : Int} {i : Issue}
    (h : i ∈ groupIssues bs p) :
    (collisionCond bs p ∧ i = collisionIssue p (groupOf bs p)) ∨
      (¬ collisionCond bs p ∧ 1 < (specOf bs p).length ∧
        i = potentialIssue p (groupOf bs p)) := by
  by_cases hc : collisionCond bs p
  · rw [groupIssues_collision hc] at h
    exact Or.inl ⟨hc, List.mem_singleton.mp h⟩
  · rw [groupIssues_no_collision hc] at h
    by_cases hs : 1 < (specOf bs p).length
    · rw [if_pos hs] at h
      exact Or.inr ⟨hc, hs, List.mem_singleton.mp h⟩
    · rw [if_neg hs] at h
      exact absurd h (List.not_mem_nil i)

theorem port_of_mem_groupIssues {bs : List PortBinding} {p : Int} {i : Issue}
    (h : i ∈ groupIssues bs p) : i.Port = p := by
  rcases mem_groupIssues h with ⟨_, rfl⟩ | ⟨_, _, rfl⟩ <;> rfl

theorem kind_of_mem_groupIssues {bs : List PortBinding} {p : Int} {i : Issue}
    (h : i ∈ groupIssues bs p) :
    i.kind = "collision" ∨ i.kind = "potential_collision" := by
  rcases mem_groupIssues h with ⟨_, rfl⟩ | ⟨_, _, rfl⟩
  · exact Or.inl rfl
  · exact Or.inr rfl

theorem mem_map_of_collisionCond {bs : List PortBinding} {p : Int}
    (hc : collisionCond bs p) : p ∈ bs.map (fun b => b.HostPort) := by
  have hw : 0 < (wildOf bs p).length := by
    unfold collisionCond at hc
    omega
  obtain ⟨b, hb⟩ := List.exists_mem_of_length_pos hw
  have hbg : b ∈ groupOf bs p := List.mem_of_mem_filter hb
  rcases mem_groupOf.mp hbg with ⟨hbs, hport⟩
  exact List.mem_map.mpr ⟨b, hbs, hport⟩

/-! ### Stage 1: counting issues per port -/

theorem mem_stage1 {bs : List PortBinding} {i : Issue} :
    i ∈ stage1 bs ↔
      ∃ p ∈ (bs.map (fun b => b.HostPort)).dedup, i ∈ groupIssues bs p :=
  mem_joinMap

theorem stage1_countP {bs : List PortBinding} {p : Int} (q : Issue → Bool)
    (hq : ∀ i, q i = true → i.Port = p) :
    (stage1 bs).countP q = (groupIssues bs p).countP q := by
  unfold stage1
  rw [countP_joinMap]
  rw [sum_map_single (List.nodup_dedup _) p
    (fun x hx => List.countP_eq_zero.mpr
      (fun i hi hqi => hx ((port_of_mem_groupIssues hi).symm.trans (hq i hqi))))]
  by_cases hp : p ∈ (bs.map (fun b => b.HostPort)).dedup
  · rw [if_pos hp]
  · rw [if_neg hp]
    rw [groupIssues_nil_of_groupOf_nil
      (groupOf_eq_nil (fun hm => hp (List.mem_dedup.mpr hm)))]
    rfl

theorem alreadyWarned_append (I J : List Issue) (p : Int) :
    alreadyWarned (I ++ J) p = (alreadyWarned I p || alreadyWarned J p) := by
  simp [alreadyWarned, List.any_append]

theorem alreadyWarned_stage1 {bs : List PortBinding} {p : Int} :
    alreadyWarned (stage1 bs) p = true ↔ collisionCond bs p := by
  unfold alreadyWarned
  rw [List.any_eq_true]
  constructor
  · rintro ⟨i, hi, hq⟩
    obtain ⟨x, _hx, hgi⟩ := mem_joinMap.mp hi
    rcases mem_groupIssues hgi with ⟨hc, rfl⟩ | ⟨_, _, rfl⟩
    · simp only [collisionIssue, Bool.and_eq_true, beq_iff_eq] at hq
      exact hq.1 ▸ hc
    · simp [potentialIssue] at hq
  · intro hc
    refine ⟨collisionIssue p (groupOf bs p), ?_, ?_⟩
    · apply mem_joinMap.mpr
      refine ⟨p, List.mem_dedup.mpr (mem_map_of_collisionCond hc), ?_⟩
      rw [groupIssues_collision hc]
      exact List.mem_singleton.mpr rfl
    · simp [collisionIssue]

/-! ### Stage 2 -/

theorem mem_stage2 {bs : List PortBinding} {i : Issue} :
    i ∈ stage2 bs ↔
      ∃ b ∈ bs, (0 < b.HostPort ∧ b.HostPort < 1024) ∧ i = privilegedIssue b := by
  unfold stage2
  rw [List.mem_filterMap]
  constructor
  · rintro ⟨b, hb, hfb⟩
    by_cases h : 0 < b.HostPort ∧ b.HostPort < 1024
    · rw [if_pos h] at hfb
      exact ⟨b, hb, h, (Option.some_inj.mp hfb).symm⟩
    · rw [if_neg h] at hfb
      cases hfb
  · rintro ⟨b, hb, h, rfl⟩
    exact ⟨b, hb, by rw [if_pos h]⟩

theorem stage2_countP (bs : List PortBinding) (q : Issue → Bool) :
    (stage2 bs).countP q
      = bs.countP
          (fun b => decide (0 < b.HostPort ∧ b.HostPort < 1024) && q (privilegedIssue b)) := by
  induction bs with
  | nil => rfl
  | cons b rest ih =>
    unfold stage2 at ih ⊢
    rw [List.filterMap_cons]
    by_cases h : 0 < b.HostPort ∧ b.HostPort < 1024
    · simp [h, List.countP_cons, ih]
    · simp [h, List.countP_cons, ih]

/-! ### Stage 3 -/

theorem mem_stage3Pure {bs : List PortBinding} {I : List Issue} {i : Issue} :
    i ∈ stage3Pure bs I ↔
      ∃ b ∈ bs, ∃ svc, commonPorts b.HostPort = some svc ∧
        (wildcard b && !alreadyWarned I b.HostPort) = true ∧ i = commonIssue b svc := by
  unfold stage3Pure
  rw [List.mem_filterMap]
  constructor
  · rintro ⟨b, hb, hfb⟩
    cases hcp : commonPorts b.HostPort with
    | none =>
      simp only [hcp] at hfb
      cases hfb
    | some svc =>
      simp only [hcp] at hfb
      by_cases hw : (wildcard b && !alreadyWarned I b.HostPort) = true
      · rw [if_pos hw] at hfb
        exact ⟨b, hb, svc, hcp, hw, (Option.some_inj.mp hfb).symm⟩
      · rw [if_neg hw] at hfb
        cases hfb
  · rintro ⟨b, hb, svc, hcp, hw, rfl⟩
    refine ⟨b, hb, ?_⟩
    simp only [hcp]
    rw [if_pos hw]

theorem stage3Pure_count_common (bs : List PortBinding) (I : List Issue) :
    (stage3Pure bs I).countP (fun i => i.kind == "common_port")
      = bs.countP
          (fun b => (commonPorts b.HostPort).isSome
            && (wildcard b && !alreadyWarned I b.HostPort)) := by
  induction bs with
  | nil => rfl
  | cons b rest ih =>
    unfold stage3Pure at ih ⊢
    rw [List.filterMap_cons, List.countP_cons]
    cases hcp : commonPorts b.HostPort with
    | none =>
      simp only [hcp]
      rw [ih]
      simp
    | some svc =>
      simp only [hcp]
      by_cases hw : (wildcard b && !alreadyWarned I b.HostPort) = true
      · rw [if_pos hw, List.countP_cons, ih]
        simp only [Bool.and_eq_true, Bool.not_eq_true'] at hw
        simp [commonIssue, hw]
      · rw [if_neg hw, ih]
        simp [hw]

theorem stage3Pure_congr {bs : List PortBinding} {I J : List Issue}
    (h : ∀ p, alreadyWarned I p = alreadyWarned J p) :
    stage3Pure bs I = stage3Pure bs J := by
  induction bs with
  | nil => rfl
  | cons b rest ih =>
    unfold stage3Pure at ih ⊢
    simp only [List.filterMap_cons]
    rw [h b.HostPort, ih]

theorem alreadyWarned_append_common {I : List Issue} {c : Issue} {p : Int}
    (h : (c.kind == "collision") = false) :
    alreadyWarned (I ++ [c]) p = alreadyWarned I p := by
  simp [alreadyWarned, List.any_append, h]

theorem loop3_eq (bs : List PortBinding) :
    ∀ issues, loop3 bs issues = issues ++ stage3Pure bs issues := by
  induction bs with
  | nil =>
    intro issues
    simp [loop3, stage3Pure]
  | cons b rest ih =>
    intro issues
    unfold loop3
    cases hcp : commonPorts b.HostPort with
    | none =>
      rw [ih issues]
      unfold stage3Pure
      simp only [List.filterMap_cons, hcp]
    | some svc =>
      simp only [hcp]
      by_cases hw : (wildcard b && !alreadyWarned issues b.HostPort) = true
      · rw [if_pos hw, ih (issues ++ [commonIssue b svc])]
        rw [stage3Pure_congr
          (fun p => alreadyWarned_append_common (by simp [commonIssue]))]
        unfold stage3Pure
        simp only [List.filterMap_cons, hcp, if_pos hw, List.append_assoc,
          List.singleton_append]
      · rw [if_neg hw, ih issues]
        unfold stage3Pure
        simp only [List.filterMap_cons, hcp, if_neg hw]

/-! ### `analyze` as a permutation of the accumulated stages -/

theorem analyze_perm (prior : List Issue) (bs : List PortBinding) :
    (analyze prior bs).Perm (coreIssues prior bs) := by
  unfold analyze coreIssues
  rw [loop3_eq]
  exact List.perm_insertionSort issueLE _

theorem analyze_countP (prior : List Issue) (bs : List PortBinding)
    (q : Issue → Bool) :
    (analyze prior bs).countP q = (coreIssues prior bs).countP q :=
  (analyze_perm prior bs).countP_eq q

theorem analyze_mem {prior : List Issue} {bs : List PortBinding} {i : Issue} :
    i ∈ analyze prior bs ↔ i ∈ coreIssues prior bs :=
  (analyze_perm prior bs).mem_iff

/-! ### Kinds of the issues each stage produces, and decompositions of
`analyze` counts by kind -/

theorem kind_of_mem_stage1 {bs : List PortBinding} {i : Issue}
    (h : i ∈ stage1 bs) :
    i.kind = "collision" ∨ i.kind = "potential_collision" := by
  obtain ⟨p, _, hg⟩ := mem_stage1.mp h
  exact kind_of_mem_groupIssues hg

theorem kind_of_mem_stage2 {bs : List PortBinding} {i : Issue}
    (h : i ∈ stage2 bs) : i.kind = "privileged" := by
  rcases mem_stage2.mp h with ⟨b, _, _, rfl⟩
  rfl

theorem kind_of_mem_stage3Pure {bs : List PortBinding} {I : List Issue}
    {i : Issue} (h : i ∈ stage3Pure bs I) : i.kind = "common_port" := by
  rcases mem_stage3Pure.mp h with ⟨b, _, svc, _, _, rfl⟩
  rfl

theorem countIssues_analyze_nil (bs : List PortBinding) (p : Int) (t : String)
    (ht : t = "collision" ∨ t = "potential_collision") :
    countIssues (analyze [] bs) t p = countIssues (groupIssues bs p) t p := by
  unfold countIssues
  rw [analyze_countP]
  unfold coreIssues
  simp only [List.nil_append]
  rw [List.countP_append, List.countP_append]
  have h2 : (stage2 bs).countP (fun i => i.kind == t && i.Port == p) = 0 :=
    List.countP_eq_zero.mpr (fun i hi hq => by
      have hk := kind_of_mem_stage2 hi
      rcases ht with rfl | rfl <;> simp [hk] at hq)
  have h3 : (stage3Pure bs (stage1 bs ++ stage2 bs)).countP
      (fun i => i.kind == t && i.Port == p) = 0 :=
    List.countP_eq_zero.mpr (fun i hi hq => by
      have hk := kind_of_mem_stage3Pure hi
      rcases ht with rfl | rfl <;> simp [hk] at hq)
  rw [h2, h3]
  rw [stage1_countP (fun i => i.kind == t && i.Port == p)
    (fun i hq => by
      simp only [Bool.and_eq_true, beq_iff_eq] at hq
      exact hq.2)]
  omega

theorem kind_of_mem_analyze_nil {bs : List PortBinding} {i : Issue}
    (hi : i ∈ analyze [] bs) :
    i.kind = "collision" ∨ i.kind = "potential_collision" ∨
      i.kind = "privileged" ∨ i.kind = "common_port" := by
  rw [analyze_mem] at hi
  unfold coreIssues at hi
  simp only [List.nil_append] at hi
  rcases List.mem_append.mp hi with h12 | h3
  · rcases List.mem_append.mp h12 with h1 | h2
    · rcases kind_of_mem_stage1 h1 with h | h
      · exact Or.inl h
      · exact Or.inr (Or.inl h)
    · exact Or.inr (Or.inr (Or.inl (kind_of_mem_stage2 h2)))
  · exact Or.inr (Or.inr (Or.inr (kind_of_mem_stage3Pure h3)))

theorem alreadyWarned_analyze_nil {bs : List PortBinding} {p : Int} :
    alreadyWarned (analyze [] bs) p = true ↔ collisionCond bs p := by
  constructor
  · intro h
    unfold alreadyWarned at h
    obtain ⟨i, hi, hq⟩ := List.any_eq_true.mp h
    rw [analyze_mem] at hi
    unfold coreIssues at hi
    simp only [List.nil_append] at hi
    rcases List.mem_append.mp hi with h12 | h3
    · rcases List.mem_append.mp h12 with h1 | h2
      · exact alreadyWarned_stage1.mp
          (by unfold alreadyWarned; exact List.any_eq_true.mpr ⟨i, h1, hq⟩)
      · have hk := kind_of_mem_stage2 h2
        simp [hk] at hq
    · have hk := kind_of_mem_stage3Pure h3
      simp [hk] at hq
  · intro hc
    have h1 : alreadyWarned (stage1 bs) p = true := alreadyWarned_stage1.mpr hc
    unfold alreadyWarned at h1 ⊢
    obtain ⟨i, hi, hq⟩ := List.any_eq_true.mp h1
    refine List.any_eq_true.mpr ⟨i, ?_, hq⟩
    rw [analyze_mem]
    unfold coreIssues
    simp only [List.nil_append]
    exact List.mem_append.mpr (Or.inl (List.mem_append.mpr (Or.inl hi)))

theorem alreadyWarned_stage12 (bs : List PortBinding) (p : Int) :
    alreadyWarned (stage1 bs ++ stage2 bs) p = alreadyWarned (stage1 bs) p := by
  rw [alreadyWarned_append]
  have h2 : alreadyWarned (stage2 bs) p = false := by
    unfold alreadyWarned
    rw [List.any_eq_false]
    intro i hi
    have hk := kind_of_mem_stage2 hi
    simp [hk]
  rw [h2, Bool.or_false]

theorem alreadyWarned_analyze_eq (bs : List PortBinding) (p : Int) :
    alreadyWarned (analyze [] bs) p = alreadyWarned (stage1 bs) p := by
  cases ha : alreadyWarned (analyze [] bs) p <;>
    cases hs : alreadyWarned (stage1 bs) p
  · rfl
  · exact absurd (alreadyWarned_analyze_nil.mpr (alreadyWarned_stage1.mp hs))
      (by rw [ha]; exact Bool.false_ne_true)
  · exact absurd (alreadyWarned_stage1.mpr (alreadyWarned_analyze_nil.mp ha))
      (by rw [hs]; exact Bool.false_ne_true)
  · rfl

theorem grouping_issue_of_mem_analyze {bs : List PortBinding} {i : Issue}
    (hi : i ∈ analyze [] bs)
    (hk : i.kind = "collision" ∨ i.kind = "potential_collision") :
    ∃ p, i ∈ groupIssues bs p := by
  rw [analyze_mem] at hi
  unfold coreIssues at hi
  simp only [List.nil_append] at hi
  rcases List.mem_append.mp hi with h12 | h3
  · rcases List.mem_append.mp h12 with h1 | h2
    · obtain ⟨p, _, hg⟩ := mem_stage1.mp h1
      exact ⟨p, hg⟩
    · have hpk := kind_of_mem_stage2 h2
      rw [hpk] at hk
      rcases hk with hk | hk <;> exact absurd hk (by decide)
  · have hpk := kind_of_mem_stage3Pure h3
    rw [hpk] at hk
    rcases hk with hk | hk <;> exact absurd hk (by decide)

theorem collision_of_mem_analyze {bs : List PortBinding} {i : Issue}
    (hi : i ∈ analyze [] bs) (hk : i.kind = "collision") :
    collisionCond bs i.Port ∧ i = collisionIssue i.Port (groupOf bs i.Port) := by
  obtain ⟨p, hg⟩ := grouping_issue_of_mem_analyze hi (Or.inl hk)
  have hp := port_of_mem_groupIssues hg
  subst hp
  rcases mem_groupIssues hg with ⟨hc, hi'⟩ | ⟨_, _, hi'⟩
  · exact ⟨hc, hi'⟩
  · rw [hi'] at hk
    exact absurd hk (by simp [potentialIssue])

theorem potential_of_mem_analyze {bs : List PortBinding} {i : Issue}
    (hi : i ∈ analyze [] bs) (hk : i.kind = "potential_collision") :
    ¬ collisionCond bs i.Port ∧ 1 < (specOf bs i.Port).length ∧
      i = potentialIssue i.Port (groupOf bs i.Port) := by
  obtain ⟨p, hg⟩ := grouping_issue_of_mem_analyze hi (Or.inr hk)
  have hp := port_of_mem_groupIssues hg
  subst hp
  rcases mem_groupIssues hg with ⟨_, hi'⟩ | ⟨hnc, hs, hi'⟩
  · rw [hi'] at hk
    exact absurd hk (by simp [collisionIssue])
  · exact ⟨hnc, hs, hi'⟩

theorem privileged_of_mem_analyze {bs : List PortBinding} {i : Issue}
    (hi : i ∈ analyze [] bs) (hk : i.kind = "privileged") :
    ∃ b ∈ bs, (0 < b.HostPort ∧ b.HostPort < 1024) ∧ i = privilegedIssue b := by
  rw [analyze_mem] at hi
  unfold coreIssues at hi
  simp only [List.nil_append] at hi
  rcases List.mem_append.mp hi with h12 | h3
  · rcases List.mem_append.mp h12 with h1 | h2
    · rcases kind_of_mem_stage1 h1 with h | h <;> rw [h] at hk <;>
        exact absurd hk (by decide)
    · exact mem_stage2.mp h2
  · rw [kind_of_mem_stage3Pure h3] at hk
    exact absurd hk (by decide)

theorem common_of_mem_analyze {bs : List PortBinding} {i : Issue}
    (hi : i ∈ analyze [] bs) (hk : i.kind = "common_port") :
    ∃ b ∈ bs, ∃ svc, commonPorts b.HostPort = some svc ∧
      (wildcard b && !alreadyWarned (stage1 bs ++ stage2 bs) b.HostPort) = true ∧
      i = commonIssue b svc := by
  rw [analyze_mem] at hi
  unfold coreIssues at hi
  simp only [List.nil_append] at hi
  rcases List.mem_append.mp hi with h12 | h3
  · rcases List.mem_append.mp h12 with h1 | h2
    · rcases kind_of_mem_stage1 h1 with h | h <;> rw [h] at hk <;>
        exact absurd hk (by decide)
    · rw [kind_of_mem_stage2 h2] at hk
      exact absurd hk (by decide)
  · exact mem_stage3Pure.mp h3

theorem count_privileged_analyze (bs : List PortBinding) :
    (analyze [] bs).countP (fun i => i.kind == "privileged")
      = bs.countP (fun b => decide (0 < b.HostPort ∧ b.HostPort < 1024)) := by
  rw [analyze_countP]
  unfold coreIssues
  simp only [List.nil_append]
  rw [List.countP_append, List.countP_append]
  have h1 : (stage1 bs).countP (fun i => i.kind == "privileged") = 0 :=
    List.countP_eq_zero.mpr (fun i hi hq => by
      rcases kind_of_mem_stage1 hi with h | h <;> simp [h] at hq)
  have h3 : (stage3Pure bs (stage1 bs ++ stage2 bs)).countP
      (fun i => i.kind == "privileged") = 0 :=
    List.countP_eq_zero.mpr (fun i hi hq => by
      simp [kind_of_mem_stage3Pure hi] at hq)
  rw [h1, h3, stage2_countP]
  have : (fun b => decide (0 < b.HostPort ∧ b.HostPort < 1024)
        && ((privilegedIssue b).kind == "privileged"))
      = (fun b => decide (0 < b.HostPort ∧ b.HostPort < 1024)) := by
    funext b
    simp [privilegedIssue]
  rw [this]
  omega

theorem count_common_analyze (bs : List PortBinding) :
    (analyze [] bs).countP (fun i => i.kind == "common_port")
      = bs.countP (fun b => (commonPorts b.HostPort).isSome
          && (wildcard b && !alreadyWarned (stage1 bs) b.HostPort)) := by
  rw [analyze_countP]
  unfold coreIssues
  simp only [List.nil_append]
  rw [List.countP_append, List.countP_append]
  have h1 : (stage1 bs).countP (fun i => i.kind == "common_port") = 0 :=
    List.countP_eq_zero.mpr (fun i hi hq => by
      rcases kind_of_mem_stage1 hi with h | h <;> simp [h] at hq)
  have h2 : (stage2 bs).countP (fun i => i.kind == "common_port") = 0 :=
    List.countP_eq_zero.mpr (fun i hi hq => by
      simp [kind_of_mem_stage2 hi] at hq)
  rw [h1, h2, stage3Pure_count_common]
  have : (fun b => (commonPorts b.HostPort).isSome
        && (wildcard b && !alreadyWarned (stage1 bs ++ stage2 bs) b.HostPort))
      = (fun b => (commonPorts b.HostPort).isSome
        && (wildcard b && !alreadyWarned (stage1 bs) b.HostPort)) := by
    funext b
    rw [alreadyWarned_stage12]
  rw [this]
  omega

/-! ### The normalizer never returns a binding with host port 0 -/

theorem checkPort_ne_zero {b c : PortBinding} (h : checkPort b = some c) :
    c.HostPort ≠ 0 := by
  unfold checkPort at h
  by_cases hb : b.HostPort = 0
  · rw [if_pos hb] at h
    cases h
  · rw [if_neg hb] at h
    exact (Option.some_inj.mp h) ▸ hb

theorem parsePort_hostPort_ne_zero (raw : RawPort) (svc file : String)
    (b : PortBinding) (h : parsePort raw svc file = some b) : b.HostPort ≠ 0 := by
  unfold parsePort at h
  cases raw with
  | str v =>
    cases hps : parsePortString v with
    | none =>
      simp only [hps] at h
      cases h
    | some t =>
      obtain ⟨ip, host, copt, popt⟩ := t
      simp only [hps] at h
      exact checkPort_ne_zero h
  | int v => exact checkPort_ne_zero h
  | map target published protocol hostIp => exact checkPort_ne_zero h
  | other => cases h

theorem gather_ne_zero {decls : List RawDecl} {b : PortBinding}
    (hb : b ∈ gatherBindings decls) : b.HostPort ≠ 0 := by
  obtain ⟨d, _, hd⟩ := List.mem_filterMap.mp hb
  exact parsePort_hostPort_ne_zero d.1 d.2.1 d.2.2 b hd

theorem bindings_of_grouping_sub {bs : List PortBinding} {i : Issue}
    {b : PortBinding} (hi : i ∈ analyze [] bs)
    (hk : i.kind = "collision" ∨ i.kind = "potential_collision")
    (hb : b ∈ i.Bindings) : b ∈ bs := by
  rcases hk with hk | hk
  · rcases collision_of_mem_analyze hi hk with ⟨_, heq⟩
    rw [heq] at hb
    simp only [collisionIssue] at hb
    exact (mem_groupOf.mp hb).1
  · rcases potential_of_mem_analyze hi hk with ⟨_, _, heq⟩
    rw [heq] at hb
    simp only [potentialIssue] at hb
    exact (mem_groupOf.mp hb).1

/-! ### The `Scan`-level parse-error handling -/

theorem mem_parseErrorsOf {files : List (String × FileOutcome)} {i : Issue}
    (hi : i ∈ parseErrorsOf files) :
    ∃ path msg, i = parseErrorIssue path msg := by
  obtain ⟨f, _, hf⟩ := List.mem_filterMap.mp hi
  cases hfo : f.2 with
  | error e =>
    simp only [hfo] at hf
    exact ⟨f.1, e, (Option.some_inj.mp hf).symm⟩
  | ok svcs =>
    simp only [hfo] at hf
    cases hf

theorem alreadyWarned_parseErrors (files : List (String × FileOutcome))
    (p : Int) : alreadyWarned (parseErrorsOf files) p = false := by
  unfold alreadyWarned
  rw [List.any_eq_false]
  intro i hi
  obtain ⟨path, msg, rfl⟩ := mem_parseErrorsOf hi
  simp [parseErrorIssue]

theorem parseErrorsOf_count (files : List (String × FileOutcome)) :
    (parseErrorsOf files).countP (fun i => i.kind == "parse_error")
      = files.countP (fun f =>
          match f.2 with
          | .error _ => true
          | .ok _ => false) := by
  induction files with
  | nil => rfl
  | cons f rest ih =>
    unfold parseErrorsOf at ih ⊢
    rw [List.filterMap_cons, List.countP_cons]
    cases hfo : f.2 with
    | error e =>
      simp only [hfo]
      rw [List.countP_cons, ih]
      simp [parseErrorIssue]
    | ok svcs =>
      simp only [hfo]
      rw [ih]
      simp

theorem scanIssues_countP (files : List (String × FileOutcome))
    (q : Issue → Bool) :
    (scanIssues files).countP q
      = (parseErrorsOf files).countP q
        + (analyze [] (joinMap fileBindings files)).countP q := by
  unfold scanIssues
  rw [analyze_countP, analyze_countP]
  unfold coreIssues
  simp only [List.nil_append]
  have hcongr : stage3Pure (joinMap fileBindings files)
      ((parseErrorsOf files ++ stage1 (joinMap fileBindings files))
        ++ stage2 (joinMap fileBindings files))
      = stage3Pure (joinMap fileBindings files)
        (stage1 (joinMap fileBindings files)
          ++ stage2 (joinMap fileBindings files)) := by
    apply stage3Pure_congr
    intro p
    rw [List.append_assoc, alreadyWarned_append, alreadyWarned_parseErrors,
      Bool.false_or]
  rw [hcongr]
  rw [List.countP_append, List.countP_append, List.countP_append,
    List.countP_append, List.countP_append]
  omega

theorem analyze_nil_no_parse_error (bs : List PortBinding) :
    (analyze [] bs).countP (fun i => i.kind == "parse_error") = 0 :=
  List.countP_eq_zero.mpr (fun i hi hq => by
    rcases kind_of_mem_analyze_nil hi with h | h | h | h <;> simp [h] at hq)

/-! ### The profiles overlay -/

theorem filterMap_eq_joinMap (f : α → Option β) (l : List α) :
    l.filterMap f = joinMap (fun a => (f a).toList) l := by
  induction l with
  | nil => rfl
  | cons a rest ih =>
    rw [List.filterMap_cons]
    cases hfa : f a with
    | none => simp [joinMap, hfa, ih]
    | some b => simp [joinMap, hfa, ih]

theorem conflict_countP_detect (c : ProfilesConfig) (act : List String)
    (p : String) :
    (DetectPortConflicts c act).countP (fun conf => conf.Port == p)
      = if 1 < (activeEntries c act).countP (fun e => e.1 == p) then 1
        else 0 := by
  unfold DetectPortConflicts
  rw [filterMap_eq_joinMap, countP_joinMap]
  rw [sum_map_single (List.nodup_dedup _) p ?hz]
  case hz =>
    intro x hx
    by_cases hlen : 1 < (((activeEntries c act).filter
        (fun e => e.1 == x)).map (fun e => e.2)).length
    · simp only [if_pos hlen]
      simp [hx]
    · simp only [if_neg hlen]
      rfl
  have hlen_eq : (((activeEntries c act).filter (fun e => e.1 == p)).map
      (fun e => e.2)).length
      = (activeEntries c act).countP (fun e => e.1 == p) := by
    rw [List.length_map, ← List.countP_eq_length_filter]
  by_cases hp : p ∈ ((activeEntries c act).map (fun e => e.1)).dedup
  · rw [if_pos hp]
    by_cases hlen : 1 < (((activeEntries c act).filter
        (fun e => e.1 == p)).map (fun e => e.2)).length
    · simp only [if_pos hlen]
      rw [← hlen_eq, if_pos hlen]
      simp
    · simp only [if_neg hlen]
      rw [← hlen_eq, if_neg hlen]
      rfl
  · rw [if_neg hp]
    have hcount : (activeEntries c act).countP (fun e => e.1 == p) = 0 := by
      apply List.countP_eq_zero.mpr
      intro e he hq
      apply hp
      rw [List.mem_dedup]
      exact List.mem_map.mpr ⟨e, he, by simpa using hq⟩
    rw [hcount]
    simp

/-! ### Claim theorems -/

/-- C1: for every host port whose group has more than one binding, if the
group has at least two wildcard bindings, or at least one wildcard and at
least one specific binding, `analyze` emits exactly one `collision` issue
of severity `error` for that port with all of the port's bindings
attached; otherwise, at least two specific bindings with distinct
addresses and no wildcard yield one `potential_collision` issue of
severity `warning` and no `collision` issue; a port with exactly one
binding produces no grouping issue. -/
theorem C1_grouping (bs : List PortBinding) (p : Int) :
    ((1 < (wildOf bs p).length ∨
        (0 < (wildOf bs p).length ∧ 0 < (specOf bs p).length)) →
      countIssues (analyze [] bs) "collision" p = 1 ∧
      ∀ i ∈ analyze [] bs, i.kind = "collision" → i.Port = p →
        i.Severity = "error" ∧ i.Bindings = groupOf bs p) ∧
    ((1 < (specOf bs p).length ∧
        (specOf bs p).Pairwise (fun a b => a.HostIP ≠ b.HostIP) ∧
        (wildOf bs p).length = 0) →
      countIssues (analyze [] bs) "potential_collision" p = 1 ∧
      countIssues (analyze [] bs) "collision" p = 0 ∧
      ∀ i ∈ analyze [] bs, i.kind = "potential_collision" → i.Port = p →
        i.Severity = "warning") ∧
    ((groupOf bs p).length = 1 →
      countIssues (analyze [] bs) "collision" p = 0 ∧
      countIssues (analyze [] bs) "potential_collision" p = 0) := by
  refine ⟨?_, ?_, ?_⟩
  · intro hA
    have hc : collisionCond bs p := hA
    constructor
    · rw [countIssues_analyze_nil bs p "collision" (Or.inl rfl)]
      unfold countIssues
      rw [groupIssues_collision hc]
      simp [collisionIssue]
    · intro i hi hk hp
      obtain ⟨_, heq⟩ := collision_of_mem_analyze hi hk
      rw [hp] at heq
      subst heq
      exact ⟨rfl, rfl⟩
  · rintro ⟨hs2, _hdist, hw0⟩
    have hnc : ¬ collisionCond bs p := by
      unfold collisionCond
      omega
    refine ⟨?_, ?_, ?_⟩
    · rw [countIssues_analyze_nil bs p "potential_collision" (Or.inr rfl)]
      unfold countIssues
      rw [groupIssues_no_collision hnc, if_pos hs2]
      simp [potentialIssue]
    · rw [countIssues_analyze_nil bs p "collision" (Or.inl rfl)]
      unfold countIssues
      rw [groupIssues_no_collision hnc, if_pos hs2]
      simp [potentialIssue]
    · intro i hi hk hp
      obtain ⟨_, _, heq⟩ := potential_of_mem_analyze hi hk
      rw [hp] at heq
      subst heq
      rfl
  · intro h1
    have hpart := wild_spec_length bs p
    have hnc : ¬ collisionCond bs p := by
      unfold collisionCond
      omega
    have hs : ¬ 1 < (specOf bs p).length := by omega
    constructor
    · rw [countIssues_analyze_nil bs p "collision" (Or.inl rfl)]
      unfold countIssues
      rw [groupIssues_no_collision hnc, if_neg hs]
      rfl
    · rw [countIssues_analyze_nil bs p "potential_collision" (Or.inr rfl)]
      unfold countIssues
      rw [groupIssues_no_collision hnc, if_neg hs]
      rfl

/-- Witness for C1: in `exMixed`, port 80 (two wildcard binds) triggers the
collision branch, port 9000 (two distinct specific binds) the
potential-collision branch, and port 3000 (one bind) the no-issue
branch. -/
theorem C1_grouping_witness :
    (countIssues (analyze [] exMixed) "collision" 80 = 1 ∧
      ∀ i ∈ analyze [] exMixed, i.kind = "collision" → i.Port = 80 →
        i.Severity = "error" ∧ i.Bindings = groupOf exMixed 80) ∧
    (countIssues (analyze [] exMixed) "potential_collision" 9000 = 1 ∧
      countIssues (analyze [] exMixed) "collision" 9000 = 0 ∧
      ∀ i ∈ analyze [] exMixed, i.kind = "potential_collision" →
        i.Port = 9000 → i.Severity = "warning") ∧
    (countIssues (analyze [] exMixed) "collision" 3000 = 0 ∧
      countIssues (analyze [] exMixed) "potential_collision" 3000 = 0) :=
  ⟨(C1_grouping exMixed 80).1 (by decide),
   (C1_grouping exMixed 9000).2.1 (by decide),
   (C1_grouping exMixed 3000).2.2 (by decide)⟩

/-- C2: `parsePort` returns no binding whenever the declaration resolves
to host port 0 — in particular for the string `"0:80"`, the bare integer
0, and long-form mappings whose `published` port is absent or resolves to
0 — so every binding produced by parsing has a nonzero host port, and a
binding with host port 0 never appears in any grouped issue. -/
theorem C2_no_zero_hostport :
    (∀ (raw : RawPort) (svc file : String) (b : PortBinding),
      parsePort raw svc file = some b → b.HostPort ≠ 0) ∧
    parsePort (.str "0:80") "svc" "f.yml" = none ∧
    parsePort (.int 0) "svc" "f.yml" = none ∧
    parsePort (.map (some 80) none none none) "svc" "f.yml" = none ∧
    parsePort (.map (some 80) (some (.str "0")) none none) "svc" "f.yml"
      = none ∧
    (∀ (decls : List RawDecl) (i : Issue),
      i ∈ analyze [] (gatherBindings decls) →
      (i.kind = "collision" ∨ i.kind = "potential_collision") →
      ∀ b ∈ i.Bindings, b.HostPort ≠ 0) :=
  ⟨parsePort_hostPort_ne_zero, by decide, by decide, by decide, by decide,
   fun decls i hi hk b hb =>
     gather_ne_zero (bindings_of_grouping_sub hi hk hb)⟩

/-- Witness for C2: the binding parsed from `"8080:80"` has nonzero host
port, and the binding attached to the collision issue of two `"8080:80"`
services has nonzero host port. -/
theorem C2_no_zero_hostport_witness :
    bWeb8080.HostPort ≠ 0 ∧ bW1.HostPort ≠ 0 :=
  ⟨C2_no_zero_hostport.1 (.str "8080:80") "web" "f.yml" bWeb8080 (by decide),
   C2_no_zero_hostport.2.2.2.2.2 exCollide
     (collisionIssue 8080 (groupOf (gatherBindings exCollide) 8080))
     (by decide) (Or.inl rfl) bW1 (by decide)⟩

/-- C3 counterexample: in `cfgProfilesTwo` the single service `serviceA`
is tagged with both profiles `dev` and `test`; with both active,
`DetectPortConflicts` reports a conflict for port 9090 even though only
one active service claims that port — the code counts
(service × profile) port entries, not distinct services, so the claim's
"if and only if more than one active service claims that port" fails. -/
theorem C3_profile_conflicts_cex :
    (∃ conf ∈ DetectPortConflicts cfgProfilesTwo ["dev", "test"],
      conf.Port = "9090") ∧
    (((activeEntries cfgProfilesTwo ["dev", "test"]).filter
        (fun e => e.1 == "9090")).map (fun e => e.2.Service)).dedup
      = ["serviceA"] ∧
    (DetectPortConflicts cfgProfilesTwo ["dev", "test"]).map
        (fun conf =>
          (conf.Port, conf.Services.map (fun s => (s.Service, s.Profile))))
      = [("9090", [("serviceA", "dev"), ("serviceA", "test")])] := by
  decide

/-- C3 amended: with the unnamed default profile always implicitly active,
`DetectPortConflicts` reports exactly one conflict for a host port if and
only if more than one active `(service, profile)` port entry claims that
port (a service active under several profiles, or listing the port twice,
counts once per entry), with no wildcard/specific distinction; in
particular `serviceA` under profile `dev` and `serviceB` with no profile
both claiming host port 9090 yield exactly one conflict when `dev` is
active, and no conflict when no profile flag is active. -/
theorem C3_profile_conflicts_amended :
    (∀ (c : ProfilesConfig) (act : List String) (p : String),
      (DetectPortConflicts c act).countP (fun conf => conf.Port == p)
        = if 1 < (activeEntries c act).countP (fun e => e.1 == p) then 1
          else 0) ∧
    ((DetectPortConflicts cfgProfiles ["dev"]).map
        (fun conf =>
          (conf.Port, conf.Services.map (fun s => (s.Service, s.Profile))))
      = [("9090", [("serviceB", "default"), ("serviceA", "dev")])]) ∧
    DetectPortConflicts cfgProfiles [] = [] :=
  ⟨conflict_countP_detect, by decide, by decide⟩

/-- C4: for every binding whose host port is in the common-ports table and
whose host address is wildcard, `analyze` emits a `common_port` issue of
severity `info` for that binding unless a `collision` issue was already
emitted for the same port; non-wildcard bindings on such ports emit no
`common_port` issue (the count equality makes wildcardness and the
absence of a collision exactly characterize the emitted issues). -/
theorem C4_common_port (bs : List PortBinding) :
    ((analyze [] bs).countP (fun i => i.kind == "common_port")
      = bs.countP (fun b => (commonPorts b.HostPort).isSome
          && (wildcard b && !alreadyWarned (analyze [] bs) b.HostPort))) ∧
    (∀ i ∈ analyze [] bs, i.kind = "common_port" →
      i.Severity = "info" ∧
      ∃ b ∈ bs, wildcard b = true ∧ (commonPorts b.HostPort).isSome = true ∧
        alreadyWarned (analyze [] bs) b.HostPort = false ∧
        i.Port = b.HostPort ∧ i.Bindings = [b]) := by
  constructor
  · rw [count_common_analyze bs]
    congr 1
    funext b
    rw [alreadyWarned_analyze_eq]
  · intro i hi hk
    obtain ⟨b, hb, svc, hcp, hw, heq⟩ := common_of_mem_analyze hi hk
    subst heq
    rw [alreadyWarned_stage12] at hw
    simp only [Bool.and_eq_true, Bool.not_eq_true'] at hw
    refine ⟨rfl, b, hb, hw.1, by rw [hcp]; rfl, ?_, rfl, rfl⟩
    rw [alreadyWarned_analyze_eq]
    exact hw.2

/-- Witness for C4: a single service publishing `"8080:80"` (wildcard bind
on common port 8080, no collision) receives exactly the info-level
common-port issue described by the theorem. -/
theorem C4_common_port_witness :
    (commonIssue bWeb8080 "HTTP Alternate").Severity = "info" ∧
    ∃ b ∈ exCommon, wildcard b = true ∧
      (commonPorts b.HostPort).isSome = true ∧
      alreadyWarned (analyze [] exCommon) b.HostPort = false ∧
      (commonIssue bWeb8080 "HTTP Alternate").Port = b.HostPort ∧
      (commonIssue bWeb8080 "HTTP Alternate").Bindings = [b] :=
  (C4_common_port exCommon).2 (commonIssue bWeb8080 "HTTP Alternate")
    (by decide) (by decide)

/-- C5: after `analyze` completes the issue list is sorted by
`(severity rank, port ascending)` with rank(error) < rank(warning) <
rank(info); concretely, the scan `exSortDemo` with one error on port 80
and warnings on ports 80 and 9000 places the error entry first even
though 80 < 9000. -/
theorem C5_issue_order (prior : List Issue) (bs : List PortBinding) :
    List.Sorted issueLE (analyze prior bs) ∧
    severityOrder "error" < severityOrder "warning" ∧
    severityOrder "warning" < severityOrder "info" ∧
    ((analyze [] exSortDemo).map (fun i => (i.Severity, i.kind, i.Port))
      = [("error", "collision", 80), ("warning", "privileged", 80),
         ("warning", "privileged", 80),
         ("warning", "potential_collision", 9000)]) := by
  refine ⟨?_, by decide, by decide, by decide⟩
  unfold analyze
  exact List.sorted_insertionSort issueLE _

/-- C6: every binding with `0 < hostPort < 1024` yields its own
`privileged` issue of severity `warning`, per binding rather than per
port group; `"80:80"` and `"443:443"` each yield exactly one privileged
issue, and two services sharing one privileged port surface two
privileged issues in addition to the collision issue for that port. -/
theorem C6_privileged :
    (∀ bs : List PortBinding,
      (analyze [] bs).countP (fun i => i.kind == "privileged")
        = bs.countP (fun b => decide (0 < b.HostPort ∧ b.HostPort < 1024)) ∧
      ∀ i ∈ analyze [] bs, i.kind = "privileged" →
        i.Severity = "warning" ∧
        ∃ b ∈ bs, 0 < b.HostPort ∧ b.HostPort < 1024 ∧
          i.Port = b.HostPort ∧ i.Bindings = [b]) ∧
    (countIssues (analyze [] exPriv1) "privileged" 80 = 1 ∧
      countIssues (analyze [] exPriv1) "privileged" 443 = 1 ∧
      countIssues (analyze [] exPriv2) "privileged" 443 = 2 ∧
      countIssues (analyze [] exPriv2) "collision" 443 = 1) := by
  refine ⟨fun bs => ⟨count_privileged_analyze bs, ?_⟩,
    by decide, by decide, by decide, by decide⟩
  intro i hi hk
  obtain ⟨b, hb, hcond, heq⟩ := privileged_of_mem_analyze hi hk
  subst heq
  exact ⟨rfl, b, hb, hcond.1, hcond.2, rfl, rfl⟩

/-- Witness for C6: the port-80 binding of `exPriv1` yields exactly the
warning-level per-binding privileged issue described by the theorem. -/
theorem C6_privileged_witness :
    (privilegedIssue bWeb80).Severity = "warning" ∧
    ∃ b ∈ exPriv1, 0 < b.HostPort ∧ b.HostPort < 1024 ∧
      (privilegedIssue bWeb80).Port = b.HostPort ∧
      (privilegedIssue bWeb80).Bindings = [b] :=
  (C6_privileged.1 exPriv1).2 (privilegedIssue bWeb80) (by decide) (by decide)

/-- C7: the long-form mapping `{target: 80, published: 8080, protocol:
tcp}` and the string `"8080:80"` normalize, for the same service and
source file, to bindings equal in hostAddress, hostPort, containerPort,
protocol, service and file — equal modulo the raw field. -/
theorem C7_longform_equiv (svc file : String) :
    ∃ b1 b2,
      parsePort (.map (some 80) (some (.int 8080)) (some "tcp") none)
          svc file = some b1 ∧
      parsePort (.str "8080:80") svc file = some b2 ∧
      b1.HostIP = b2.HostIP ∧ b1.HostPort = b2.HostPort ∧
      b1.ContainerPort = b2.ContainerPort ∧ b1.Protocol = b2.Protocol ∧
      b1.Service = b2.Service ∧ b1.File = b2.File := by
  refine ⟨_, _, rfl, rfl, rfl, rfl, rfl, rfl, rfl, rfl⟩

/-- C8: protocol is recorded in the canonical binding, but stage-1
grouping keys by host port alone: `"53:53/tcp"` and `"53:53/udp"` from
different services land in the same port-53 group and one collision
issue is emitted for port 53 with both bindings attached. -/
theorem C8_protocol_ignored :
    exDns.map (fun b => (b.Service, b.Protocol, b.HostPort))
      = [("dns1", "tcp", (53 : Int)), ("dns2", "udp", 53)] ∧
    ((analyze [] exDns).filter (fun i => i.kind == "collision")).map
        (fun i => (i.Severity, i.Port,
          i.Bindings.map (fun b => (b.Service, b.Protocol))))
      = [("error", (53 : Int), [("dns1", "tcp"), ("dns2", "udp")])] ∧
    groupOf exDns 53 = exDns := by
  decide

/-- C9: each configuration file that cannot be read or whose YAML cannot
be parsed contributes one `parse_error` issue of severity `warning`, and
the scan continues: the resulting issue list still contains the full
analysis of the bindings gathered from the remaining files (`Scan` is
total and always returns a result). -/
theorem C9_parse_error (files : List (String × FileOutcome)) :
    (scanIssues files).countP (fun i => i.kind == "parse_error")
      = files.countP (fun f =>
          match f.2 with
          | .error _ => true
          | .ok _ => false) ∧
    (scanIssues files).countP
        (fun i => i.kind == "parse_error" && !(i.Severity == "warning")) = 0 ∧
    ∀ q : Issue → Bool,
      (scanIssues files).countP q
        = (parseErrorsOf files).countP q
          + (analyze [] (joinMap fileBindings files)).countP q := by
  refine ⟨?_, ?_, scanIssues_countP files⟩
  · rw [scanIssues_countP, analyze_nil_no_parse_error, parseErrorsOf_count]
    omega
  · rw [scanIssues_countP]
    have h1 : (parseErrorsOf files).countP
        (fun i => i.kind == "parse_error" && !(i.Severity == "warning")) = 0 :=
      List.countP_eq_zero.mpr (fun i hi hq => by
        obtain ⟨path, msg, rfl⟩ := mem_parseErrorsOf hi
        simp [parseErrorIssue] at hq)
    have h2 : (analyze [] (joinMap fileBindings files)).countP
        (fun i => i.kind == "parse_error" && !(i.Severity == "warning")) = 0 :=
      List.countP_eq_zero.mpr (fun i hi hq => by
        rcases kind_of_mem_analyze_nil hi with h | h | h | h <;> simp [h] at hq)
    rw [h1, h2]

/-- C10: a port group of two or more bindings all carrying the same
specific (non-wildcard) host address receives only a
`potential_collision` warning, never a `collision` error — the stage-1
split tests wildcard-versus-specific only and never compares two
specific addresses for equality. -/
theorem C10_same_specific (bs : List PortBinding) (p : Int) (A : String)
    (hlen : 2 ≤ (groupOf bs p).length)
    (hall : ∀ b ∈ groupOf bs p, b.HostIP = A)
    (hA1 : A ≠ "") (hA2 : A ≠ "0.0.0.0") :
    countIssues (analyze [] bs) "collision" p = 0 ∧
    countIssues (analyze [] bs) "potential_collision" p = 1 ∧
    (∀ i ∈ analyze [] bs, i.kind = "potential_collision" → i.Port = p →
      i.Severity = "warning" ∧ i.Bindings = groupOf bs p) := by
  have hwnil : wildOf bs p = [] := by
    unfold wildOf
    rw [List.filter_eq_nil_iff]
    intro b hb
    simp [wildcard, hall b hb, hA1, hA2]
  have hseq : (specOf bs p).length = (groupOf bs p).length := by
    have hpart := wild_spec_length bs p
    rw [hwnil] at hpart
    simpa using hpart
  have hnc : ¬ collisionCond bs p := by
    unfold collisionCond
    rw [hwnil]
    simp
  have hs2 : 1 < (specOf bs p).length := by omega
  refine ⟨?_, ?_, ?_⟩
  · rw [countIssues_analyze_nil bs p "collision" (Or.inl rfl)]
    unfold countIssues
    rw [groupIssues_no_collision hnc, if_pos hs2]
    simp [potentialIssue]
  · rw [countIssues_analyze_nil bs p "potential_collision" (Or.inr rfl)]
    unfold countIssues
    rw [groupIssues_no_collision hnc, if_pos hs2]
    simp [potentialIssue]
  · intro i hi hk hp
    obtain ⟨_, _, heq⟩ := potential_of_mem_analyze hi hk
    rw [hp] at heq
    subst heq
    exact ⟨rfl, rfl⟩

/-- Witness for C10: two services both declaring `"127.0.0.1:8080:80"`
(identical specific addresses) receive one potential-collision warning
and no collision error on port 8080. -/
theorem C10_same_specific_witness :
    countIssues (analyze [] exSameIP) "collision" 8080 = 0 ∧
    countIssues (analyze [] exSameIP) "potential_collision" 8080 = 1 ∧
    (∀ i ∈ analyze [] exSameIP, i.kind = "potential_collision" →
      i.Port = 8080 →
      i.Severity = "warning" ∧ i.Bindings = groupOf exSameIP 8080) :=
  C10_same_specific exSameIP 8080 "127.0.0.1" (by decide) (by decide)
    (by decide) (by decide)
